import Mathlib

/-!
Verification of the NFL Draft plugin's acquisition / normalization pipeline
(`manager.py`, class `NFLDraftPlugin`) against its natural-language
specification.

The source is shallowly embedded: JSON feed values become the inductive
type `J`; the plugin's mutable attributes (`draft_picks`, `is_draft_live`,
`draft_status`, `current_round`, plus the relevant configuration) become
the record `DraftState`; each method's pure data logic becomes a Lean
function over these types.  Network I/O appears as explicit inputs (the
already-fetched feed value, the already-fetched prospect list, an
athlete-reference resolver function).  Python `str` helpers used by the
config parser are re-implemented over `List Char` so that everything
reduces inside the kernel.
-/

namespace NFLDraft

/-- JSON values as delivered by the ESPN feeds.  Booleans do not occur in
any field the plugin reads (per the feed contracts the numeric fields
`overall`, `round`, `pick`, `number` are integers and the name fields are
strings), so they are not modelled. -/
inductive J where
  | null
  | i (n : Int)
  | s (v : String)
  | arr (xs : List J)
  | obj (fields : List (String × J))

/-- Python dict `.get(key)`: `none` when the key is absent or the value is
not a dict at all. -/
def J.get (j : J) (k : String) : Option J :=
  match j with
  | .obj fs => fs.lookup k
  | _ => Option.none

/-- Python dict `.get(key, default)`. -/
def J.getD (j : J) (k : String) (d : J) : J :=
  (j.get k).getD d

/-- Python truthiness of a JSON value: `None`, `0`, `""`, `[]`, `{}` are
falsy, everything else truthy. -/
def J.truthy : J → Bool
  | .null => false
  | .i n => n != 0
  | .s v => v ≠ ""
  | .arr xs => !xs.isEmpty
  | .obj fs => !fs.isEmpty

/-- Iterating a JSON value as a Python list; the feed contract guarantees
the iterated fields (`picks`, `teams`, `items`) are arrays. -/
def J.asArr : J → List J
  | .arr xs => xs
  | _ => []

/-- Truthiness of a `raw_pick.get("athlete")`-style optional lookup
(`None` for an absent key is falsy). -/
def jTruthyOpt : Option J → Bool
  | Option.none => false
  | Option.some a => a.truthy

/-- `d.get(key, default)` where the caller expects an integer (feed
contract: `overall` / `round` / `pick` / `number` are integers when
present). -/
def jGetIntD (j : J) (k : String) (d : Int) : Int :=
  match j.get k with
  | Option.some (J.i n) => n
  | _ => d

/-- `d.get(key, default)` where the caller expects a string. -/
def jGetStrD (j : J) (k : String) (d : String) : String :=
  match j.get k with
  | Option.some (J.s v) => v
  | _ => d

/-- Python `str(x)` for the values that reach it (`str(raw_pick.get("teamId", ""))`,
`str(team.get("id", ""))`): strings pass through, ints print in decimal,
`None` prints as `"None"`.  Containers never reach `str` under the feed
contract, so their rendering is left as the empty string. -/
def pyStr : J → String
  | .s v => v
  | .i n => toString n
  | .null => "None"
  | .arr _ => ""
  | .obj _ => ""

/-- Python dict assignment `d[k] = v` on an association list
(replace-or-append, so a later assignment wins as in a real dict). -/
def alistSet (d : List (String × J)) (k : String) (v : J) : List (String × J) :=
  if d.any (fun p => p.1 == k) then
    d.map (fun p => if p.1 == k then (k, v) else p)
  else
    d ++ [(k, v)]

/-! ### Python string helpers (over `List Char`, so they reduce) -/

/-- Python `str.lower()` (ASCII case mapping; the feed's `state` values and
the `rounds` config are ASCII). -/
def pyLower (s : String) : String :=
  ⟨s.data.map Char.toLower⟩

/-- Python `str.strip()` on a character list (whitespace from both ends). -/
def pyStripL (cs : List Char) : List Char :=
  ((cs.dropWhile Char.isWhitespace).reverse.dropWhile Char.isWhitespace).reverse

/-- Python `str.split(sep)` for a one-character separator, on a character
list: split on every occurrence; splitting the empty string yields `[""]`,
exactly as in Python. -/
def pySplitOnChar : List Char → Char → List (List Char)
  | [], _ => [[]]
  | c :: rest, sep =>
    match pySplitOnChar rest sep with
    | [] => [[]]
    | cur :: done => if c = sep then [] :: cur :: done else (c :: cur) :: done

/-- Python `str.isdigit()` for ASCII text: non-empty and all digits. -/
def pyIsdigitL (cs : List Char) : Bool :=
  cs ≠ [] && cs.all Char.isDigit

/-- Python `int(s)` on a digit-only ASCII string (the only case the config
parser reaches, guarded by `isdigit`). -/
def pyIntOfDigits (cs : List Char) : Int :=
  (cs.foldl (fun acc c => acc * 10 + (c.toNat - 48)) 0 : Nat)

/-! ### Data model -/

/-- One synthesized draft pick record.  The Python code builds these dicts
with all keys always present; the `on_clock` key is absent until set, and
`pick.get("on_clock", False)` / `pick.pop("on_clock", None)` treat absence
as `False`, so it is modelled as a `Bool` that defaults to `false`. -/
structure Pick where
  pick_number : Int
  round : Int
  round_pick : Int
  team_abbr : String
  team_name : String
  player_name : String
  position : String
  college : String
  on_clock : Bool := false
deriving DecidableEq, Repr

/-- A prospect dict as built by `_fetch_all_prospects` (all keys present;
`id` is never read downstream and is omitted). -/
structure Prospect where
  displayName : String
  position : String
  college : String
  overall_rank : Int
deriving DecidableEq, Repr

/-- The plugin attributes that the acquisition pipeline reads and writes,
plus the configuration it consults. -/
structure DraftState where
  draft_picks : List Pick
  is_draft_live : Bool
  draft_status : String
  current_round : Int
  rounds_to_display : List Int
  simulate_live : Bool
  draft_year : Int
deriving DecidableEq, Repr

/-! ### `_load_config`: the rounds string -/

/-- The rounds-parsing part of `_load_config`: `"all"` (case-insensitive)
yields rounds 1–7; otherwise the comma-separated digit tokens are parsed;
an empty result is replaced by the default `[1, 2, 3]`. -/
def loadRounds (rounds_str : String) : List Int :=
  let r : List Int :=
    if pyLower rounds_str = "all" then
      [1, 2, 3, 4, 5, 6, 7]
    else
      (((pySplitOnChar rounds_str.data ',').map pyStripL).filter
        (fun t => pyIsdigitL t)).map pyIntOfDigits
  if r = [] then [1, 2, 3] else r

/-! ### `_is_draft_date` / `_check_draft_live_status` -/

/-- A Python `datetime` value (validity of the field ranges is stated as a
predicate below, as the `datetime` constructor enforces it). -/
structure PyDateTime where
  year : Int
  month : Int
  day : Int
  hour : Int
  minute : Int
  second : Int
  microsecond : Int
deriving DecidableEq, Repr

/-- Field ranges enforced by the Python `datetime` constructor (day upper
bounds per month are irrelevant here and loosened to 31). -/
def PyDateTime.Valid (t : PyDateTime) : Prop :=
  1 ≤ t.month ∧ t.month ≤ 12 ∧ 1 ≤ t.day ∧ t.day ≤ 31 ∧
  0 ≤ t.hour ∧ t.hour ≤ 23 ∧ 0 ≤ t.minute ∧ t.minute ≤ 59 ∧
  0 ≤ t.second ∧ t.second ≤ 59 ∧ 0 ≤ t.microsecond ∧ t.microsecond ≤ 999999

/-- Python `datetime` comparison: lexicographic on
(year, month, day, hour, minute, second, microsecond). -/
def dtLe (a b : PyDateTime) : Prop :=
  a.year < b.year ∨ (a.year = b.year ∧
  (a.month < b.month ∨ (a.month = b.month ∧
  (a.day < b.day ∨ (a.day = b.day ∧
  (a.hour < b.hour ∨ (a.hour = b.hour ∧
  (a.minute < b.minute ∨ (a.minute = b.minute ∧
  (a.second < b.second ∨ (a.second = b.second ∧
  a.microsecond ≤ b.microsecond)))))))))))

instance (a b : PyDateTime) : Decidable (dtLe a b) := by
  unfold dtLe; infer_instance

instance (t : PyDateTime) : Decidable t.Valid := by
  unfold PyDateTime.Valid; infer_instance

/-- `_is_draft_date`: `datetime(year, 4, 20) <= now <= datetime(year, 4, 27)`. -/
def isDraftDate (draft_year : Int) (now : PyDateTime) : Bool :=
  decide (dtLe ⟨draft_year, 4, 20, 0, 0, 0, 0⟩ now) &&
  decide (dtLe now ⟨draft_year, 4, 27, 0, 0, 0, 0⟩)

/-! ### `_fetch_draft_picks`: status update and pick building -/

/-- The status-update block of `_fetch_draft_picks` (lines updating
`draft_status`, `is_draft_live`, `current_round` from `data["status"]`).
`data.get("status", {})` is falsy when absent or empty, skipping the whole
block.  Note that only the `state == "in"` branch touches `is_draft_live`,
and that an absent `round` key defaults to the integer `1`, which passes
the `isinstance(..., int)` check. -/
def updateStatusFromFeed (st : DraftState) (data : J) : DraftState :=
  let status := data.getD "status" (J.obj [])
  if status.truthy then
    let state := pyLower (jGetStrD status "state" "")
    let st1 :=
      if state = "in" then
        { st with draft_status := "live", is_draft_live := true }
      else if state = "post" then
        { st with draft_status := "complete" }
      else
        { st with draft_status := "pre" }
    match status.getD "round" (J.i 1) with
    | J.i n => { st1 with current_round := n }
    | _ => st1
  else
    st

/-- The `teams_lookup` construction of `_fetch_draft_picks`:
`teams_lookup[str(team_id)] = team` for every team whose `id` is truthy. -/
def buildTeamsLookup (teams : List J) : List (String × J) :=
  teams.foldl
    (fun acc team =>
      match team.get "id" with
      | Option.some idv => if idv.truthy then alistSet acc (pyStr idv) team else acc
      | Option.none => acc)
    []

/-- The `pick_data` dict of `_fetch_draft_picks` as first assembled, before
the prospect / athlete branches run.  `idx` is the 0-based position of the
raw pick in `data["picks"]`. -/
def sitePickBase (teams_lookup : List (String × J)) (idx : Nat) (raw : J) : Pick :=
  let team_id := pyStr (raw.getD "teamId" (J.s ""))
  let team_info := (teams_lookup.lookup team_id).getD (J.obj [])
  { pick_number := jGetIntD raw "overall" ((idx : Int) + 1)
    round := jGetIntD raw "round" 1
    round_pick := jGetIntD raw "pick" 0
    team_abbr := jGetStrD team_info "abbreviation" ""
    team_name := jGetStrD team_info "displayName" ""
    player_name := "TBD"
    position := ""
    college := "" }

/-- The per-pick body of `_fetch_draft_picks`' loop: in `"pre"` status with
a prospect available at `idx`, fill from `prospects[idx]`; otherwise, if
the raw pick carries a truthy `athlete` object, fill from it; otherwise
the base record stands. -/
def sitePickAt (draft_status : String) (teams_lookup : List (String × J))
    (prospects : List Prospect) (idx : Nat) (raw : J) : Pick :=
  let base := sitePickBase teams_lookup idx raw
  if draft_status = "pre" ∧ idx < prospects.length then
    let prospect := prospects.getD idx ⟨"TBD", "", "", 999⟩
    { base with
      player_name := prospect.displayName
      position := prospect.position
      college := prospect.college }
  else if jTruthyOpt (raw.get "athlete") then
    let athlete := (raw.get "athlete").getD J.null
    let position :=
      match athlete.get "position" with
      | Option.some (J.obj fs) => jGetStrD (J.obj fs) "abbreviation" ""
      | _ => ""
    let college :=
      match athlete.get "team" with
      | Option.some (J.obj fs) =>
        if (J.obj fs).truthy then
          jGetStrD (J.obj fs) "shortDisplayName" (jGetStrD (J.obj fs) "name" "")
        else ""
      | _ => ""
    { base with
      player_name := jGetStrD athlete "displayName" "TBD"
      position := position
      college := college }
  else
    base

/-- The pick-building loop of `_fetch_draft_picks`: enumerate the raw
picks, apply the round filters, build each record, and keep it only when
it has a team abbreviation or a resolved player name. -/
def fetchDraftPicksList (st : DraftState) (data : J) (prospects : List Prospect)
    (round_num : Option Int) : List Pick :=
  let teams_lookup := buildTeamsLookup (data.getD "teams" (J.arr [])).asArr
  (data.getD "picks" (J.arr [])).asArr.enum.filterMap
    (fun p =>
      let idx := p.1
      let raw := p.2
      let pick_round := jGetIntD raw "round" 1
      let roundMismatch : Bool :=
        match round_num with
        | Option.some rn => pick_round != rn
        | Option.none => false
      if roundMismatch then Option.none
      else if pick_round ∉ st.rounds_to_display then Option.none
      else
        let pk := sitePickAt st.draft_status teams_lookup prospects idx raw
        if pk.team_abbr ≠ "" ∨ pk.player_name ≠ "TBD" then Option.some pk
        else Option.none)

/-- `_fetch_draft_picks`: `data` is the (possibly empty) result of
`_fetch_draft_data`; `prospectsAvail` is what `_fetch_all_prospects` would
return (it is consulted only when the updated status is `"pre"`, exactly
as in the source).  Returns the updated state together with the pick list.
An un-truthy `data` logs a warning and returns the empty list with the
state untouched. -/
def fetchDraftPicks (st : DraftState) (data : J) (prospectsAvail : List Prospect)
    (round_num : Option Int) : DraftState × List Pick :=
  if !data.truthy then
    (st, [])
  else
    let st1 := updateStatusFromFeed st data
    let prospects := if st1.draft_status = "pre" then prospectsAvail else []
    (st1, fetchDraftPicksList st1 data prospects round_num)

/-! ### `_check_draft_live_status` -/

/-- `_check_draft_live_status`: read `data["status"]["state"]` when both
`data` and the status object are truthy; otherwise fall back to the date
heuristic `_is_draft_date`.  Returns the updated state and the live flag. -/
def checkDraftLiveStatus (st : DraftState) (data : J) (now : PyDateTime) :
    DraftState × Bool :=
  if data.truthy then
    let status := data.getD "status" (J.obj [])
    if status.truthy then
      let state := pyLower (jGetStrD status "state" "")
      if state = "in" then ({ st with draft_status := "live" }, true)
      else if state = "post" then ({ st with draft_status := "complete" }, false)
      else ({ st with draft_status := "pre" }, false)
    else
      (st, isDraftDate st.draft_year now)
  else
    (st, isDraftDate st.draft_year now)

/-! ### `_fetch_historical_picks` -/

/-- Trailing-path-segment extraction of `_fetch_historical_picks`:
`team_ref.split("?")[0].rstrip("/").split("/")[-1]` (the caller guards the
empty string separately). -/
def extractTeamId (team_ref : String) : String :=
  ⟨(pySplitOnChar team_ref.data '?').headD [] |>.reverse.dropWhile (fun c => c = '/')
    |>.reverse |> (fun cs => (pySplitOnChar cs '/').getLastD [])⟩

/-- The raw-pick collection loop of `_fetch_historical_picks`: keep the
inline `picks` of every round whose `number` is configured, tagged with
that round number. -/
def collectRawPicks (rounds_to_display : List Int) (items : List J) : List (Int × J) :=
  items.flatMap
    (fun item =>
      let round_num := jGetIntD item "number" 0
      if round_num ∈ rounds_to_display then
        ((item.getD "picks" (J.arr [])).asArr).map (fun p => (round_num, p))
      else [])

/-- One `pick_data` dict of `_fetch_historical_picks`' build loop. `i` is
the 0-based position in the enumerated `raw_picks` list and `athlete` the
index-aligned resolution result (or `none` on fetch failure / empty URL). -/
def histPickAt (teams_lookup : List (String × String)) (i : Nat) (round_num : Int)
    (raw : J) (athlete : Option J) : Pick :=
  let team_ref := jGetStrD (raw.getD "team" (J.obj [])) "$ref" ""
  let team_id := if team_ref ≠ "" then extractTeamId team_ref else ""
  let team_abbr := (teams_lookup.lookup team_id).getD ""
  let base : Pick :=
    { pick_number := jGetIntD raw "overall" ((i : Int) + 1)
      round := round_num
      round_pick := jGetIntD raw "pick" 0
      team_abbr := team_abbr
      team_name := ""
      player_name := "TBD"
      position := ""
      college := "" }
  if jTruthyOpt athlete then
    let a := athlete.getD J.null
    let position :=
      match a.get "position" with
      | Option.some (J.obj fs) => jGetStrD (J.obj fs) "abbreviation" ""
      | _ => ""
    { base with
      player_name := jGetStrD a "displayName" "TBD"
      position := position }
  else
    base

/-- `fetch_athlete_ref`: an empty URL short-circuits to `None`; otherwise
the network result (modelled by `resolve`) is returned, `none` standing
for any fetch failure. -/
def fetchAthleteRef (resolve : String → Option J) (url : String) : Option J :=
  if url = "" then Option.none else resolve url

/-- The pure core of `_fetch_historical_picks` (cache interaction and the
HTTP fetch of `rounds_data` are inputs): collect the configured rounds'
inline picks, resolve each pick's athlete reference (index-aligned),
build the records, drop the ones with no identifying data, and sort by
`pick_number`. -/
def fetchHistoricalPicks (rounds_to_display : List Int)
    (teams_lookup : List (String × String)) (rounds_data : J)
    (resolve : String → Option J) : List Pick :=
  let raw_picks := collectRawPicks rounds_to_display
    (rounds_data.getD "items" (J.arr [])).asArr
  let athlete_results := raw_picks.map
    (fun p => fetchAthleteRef resolve (jGetStrD (p.2.getD "athlete" (J.obj [])) "$ref" ""))
  let picks := (raw_picks.zip athlete_results).enum.filterMap
    (fun q =>
      let i := q.1
      let round_num := q.2.1.1
      let raw := q.2.1.2
      let athlete := q.2.2
      let pk := histPickAt teams_lookup i round_num raw athlete
      if pk.team_abbr ≠ "" ∨ pk.player_name ≠ "TBD" then Option.some pk
      else Option.none)
  picks.insertionSort (fun a b => a.pick_number ≤ b.pick_number)

/-! ### `_get_display_round` -/

/-- `_get_display_round`: surface `current_round` when it already has a
resolved pick; otherwise the highest round containing a resolved pick
(`sorted({...}, reverse=True)[0]`); otherwise fall back to
`current_round`. -/
def getDisplayRound (st : DraftState) : Int × List Pick :=
  let current_picks := st.draft_picks.filter (fun p => p.round = st.current_round)
  let current_done := current_picks.filter (fun p => p.player_name ≠ "TBD")
  if !current_done.isEmpty then
    (st.current_round, current_picks)
  else
    let completed_rounds :=
      (((st.draft_picks.filter (fun p => p.player_name ≠ "TBD")).map
        (fun p => p.round)).dedup).insertionSort (fun a b => b ≤ a)
    match completed_rounds with
    | last :: _ => (last, st.draft_picks.filter (fun p => p.round = last))
    | [] => (st.current_round, current_picks)

/-! ### `update`: sorting and on-the-clock marking -/

/-- The marking loop of `update`: walk the (already sorted, already
cleared) pick list and set `on_clock` on the first pick whose
`player_name` is `"TBD"` and whose `round` is the current round, then
stop (`break`). -/
def markFirst (current_round : Int) : List Pick → List Pick
  | [] => []
  | p :: rest =>
    if p.player_name = "TBD" ∧ p.round = current_round then
      { p with on_clock := true } :: rest
    else
      p :: markFirst current_round rest

/-- The mode dispatch at the top of `update`'s try-block: simulate mode
installs the historical picks under status `"simulate"`; otherwise
`_fetch_draft_picks` runs (also updating the status fields). -/
def preSynth (st : DraftState) (data : J) (prospectsAvail : List Prospect)
    (historical : List Pick) : DraftState :=
  if st.simulate_live then
    { st with draft_status := "simulate", draft_picks := historical }
  else
    let r := fetchDraftPicks st data prospectsAvail Option.none
    { r.1 with draft_picks := r.2 }

/-- The synthesis tail of `update`: sort by `pick_number`, pop every
stale `on_clock` flag, and mark the first open current-round slot — only
during a real live draft. -/
def synthesize (st1 : DraftState) : DraftState :=
  let sorted := st1.draft_picks.insertionSort (fun a b => a.pick_number ≤ b.pick_number)
  let cleared := sorted.map (fun p => { p with on_clock := false })
  let marked :=
    if st1.is_draft_live && !st1.simulate_live then
      markFirst st1.current_round cleared
    else
      cleared
  { st1 with draft_picks := marked }

/-- The data part of one `update` cycle, after the refresh-interval gate
has passed.  The network results are inputs: `data` for
`_fetch_draft_data`, `prospectsAvail` for `_fetch_all_prospects`,
`historical` for `_fetch_historical_picks`.  (Python `list.sort` is
stable, and a stable sort's output is uniquely determined by the input,
so the structurally recursive stable `insertionSort` used in `synthesize`
and `fetchHistoricalPicks` computes exactly the list Python produces.) -/
def updateCycle (st : DraftState) (data : J) (prospectsAvail : List Prospect)
    (historical : List Pick) : DraftState :=
  synthesize (preSynth st data prospectsAvail historical)

instance : Inhabited Pick :=
  ⟨⟨0, 0, 0, "", "", "TBD", "", "", false⟩⟩

instance : IsTotal Pick (fun a b => a.pick_number ≤ b.pick_number) :=
  ⟨fun a b => le_total a.pick_number b.pick_number⟩

instance : IsTrans Pick (fun a b => a.pick_number ≤ b.pick_number) :=
  ⟨fun _ _ _ h1 h2 => le_trans h1 h2⟩

instance : IsTotal Int (fun a b => b ≤ a) :=
  ⟨fun a b => (le_total a b).symm⟩

instance : IsTrans Int (fun a b => b ≤ a) :=
  ⟨fun _ _ _ h1 h2 => le_trans h2 h1⟩

/-! ### Helper lemmas -/

theorem markFirst_map_pick_number (r : Int) (l : List Pick) :
    (markFirst r l).map (fun p => p.pick_number) = l.map (fun p => p.pick_number) := by
  induction l with
  | nil => rfl
  | cons p rest ih =>
    by_cases h : p.player_name = "TBD" ∧ p.round = r
    · simp [markFirst, h]
    · simp [markFirst, h, ih]

theorem pairwise_pick_of_map (l : List Pick)
    (h : List.Pairwise (· ≤ ·) (l.map (fun p => p.pick_number))) :
    List.Pairwise (fun a b : Pick => a.pick_number ≤ b.pick_number) l :=
  List.pairwise_map.mp h

theorem pairwise_markFirst (r : Int) (l : List Pick)
    (h : List.Pairwise (fun a b : Pick => a.pick_number ≤ b.pick_number) l) :
    List.Pairwise (fun a b : Pick => a.pick_number ≤ b.pick_number) (markFirst r l) := by
  apply pairwise_pick_of_map
  rw [markFirst_map_pick_number]
  exact List.pairwise_map.mpr h

theorem pairwise_cleared (X : List Pick) :
    List.Pairwise (fun a b : Pick => a.pick_number ≤ b.pick_number)
      ((X.insertionSort (fun a b => a.pick_number ≤ b.pick_number)).map
        (fun p => { p with on_clock := false })) := by
  refine List.Pairwise.map _ (fun a b h => h) ?_
  exact List.sorted_insertionSort (fun a b : Pick => a.pick_number ≤ b.pick_number) X

theorem mem_cleared_on_clock (X : List Pick) :
    ∀ p ∈ X.map (fun p => { p with on_clock := false }), p.on_clock = false := by
  intro p hp
  obtain ⟨q, _, rfl⟩ := List.mem_map.mp hp
  rfl

theorem markFirst_filter_length (r : Int) (l : List Pick)
    (h : ∀ p ∈ l, p.on_clock = false) :
    ((markFirst r l).filter (fun p => p.on_clock)).length ≤ 1 := by
  induction l with
  | nil => simp [markFirst]
  | cons p rest ih =>
    have hp : p.on_clock = false := h p (by simp)
    have hrest : ∀ q ∈ rest, q.on_clock = false := fun q hq => h q (by simp [hq])
    by_cases hc : p.player_name = "TBD" ∧ p.round = r
    · have : rest.filter (fun p => p.on_clock) = [] :=
        List.filter_eq_nil_iff.mpr (by intro q hq; simp [hrest q hq])
      simp [markFirst, hc, this]
    · simp only [markFirst, if_neg hc]
      rw [List.filter_cons_of_neg (by simp [hp])]
      exact ih hrest

theorem markFirst_char (r : Int) (l : List Pick)
    (h : ∀ p ∈ l, p.on_clock = false) :
    ∀ i, i < (markFirst r l).length →
      ((markFirst r l).getD i default).on_clock = true →
      ((markFirst r l).getD i default).player_name = "TBD" ∧
      ((markFirst r l).getD i default).round = r ∧
      ∀ j, j < i →
        ¬(((markFirst r l).getD j default).player_name = "TBD" ∧
          ((markFirst r l).getD j default).round = r) := by
  induction l with
  | nil => intro i hi; simp [markFirst] at hi
  | cons p rest ih =>
    have hp : p.on_clock = false := h p (by simp)
    have hrest : ∀ q ∈ rest, q.on_clock = false := fun q hq => h q (by simp [hq])
    by_cases hc : p.player_name = "TBD" ∧ p.round = r
    · intro i hi hoc
      simp only [markFirst, if_pos hc] at hi hoc ⊢
      match i with
      | 0 =>
        refine ⟨hc.1, hc.2, ?_⟩
        intro j hj; omega
      | Nat.succ k =>
        exfalso
        rw [List.getD_cons_succ] at hoc
        have hk : k < rest.length := by simpa using hi
        rw [List.getD_eq_get rest default hk] at hoc
        have := hrest _ (List.get_mem rest k hk)
        rw [this] at hoc
        exact Bool.false_ne_true hoc
    · intro i hi hoc
      simp only [markFirst, if_neg hc] at hi hoc ⊢
      match i with
      | 0 =>
        exfalso
        rw [List.getD_cons_zero] at hoc
        rw [hp] at hoc
        exact Bool.false_ne_true hoc
      | Nat.succ k =>
        rw [List.getD_cons_succ] at hoc
        have hk : k < (markFirst r rest).length := by simpa using hi
        obtain ⟨h1, h2, h3⟩ := ih hrest k hk hoc
        refine ⟨by simpa using h1, by simpa using h2, ?_⟩
        intro j hj
        match j with
        | 0 => simpa using hc
        | Nat.succ m =>
          rw [List.getD_cons_succ]
          exact h3 m (by omega)

theorem all_on_clock_false_of_getD (L : List Pick)
    (h : ∀ p ∈ L, p.on_clock = false) (i : Nat) (hi : i < L.length) :
    (L.getD i default).on_clock = false := by
  rw [List.getD_eq_get L default hi]
  exact h _ (List.get_mem L i hi)

/-- `synthesize` with its lets flattened (pure let-reassociation). -/
theorem synthesize_def (st1 : DraftState) :
    synthesize st1 =
      { st1 with draft_picks :=
          (if st1.is_draft_live && !st1.simulate_live then
            markFirst st1.current_round
              ((st1.draft_picks.insertionSort
                (fun a b => a.pick_number ≤ b.pick_number)).map
                (fun p => { p with on_clock := false }))
          else
            ((st1.draft_picks.insertionSort
              (fun a b => a.pick_number ≤ b.pick_number)).map
              (fun p => { p with on_clock := false }))) } := rfl

theorem updateStatusFromFeed_simulate (st : DraftState) (data : J) :
    (updateStatusFromFeed st data).simulate_live = st.simulate_live := by
  simp only [updateStatusFromFeed]
  split
  · split <;> split_ifs <;> rfl
  · rfl

theorem fetchDraftPicks_fst_simulate (st : DraftState) (data : J)
    (pros : List Prospect) (rn : Option Int) :
    ((fetchDraftPicks st data pros rn).1).simulate_live = st.simulate_live := by
  unfold fetchDraftPicks
  split
  · rfl
  · exact updateStatusFromFeed_simulate st data

theorem preSynth_simulate (st : DraftState) (data : J) (pros : List Prospect)
    (hist : List Pick) :
    (preSynth st data pros hist).simulate_live = st.simulate_live := by
  unfold preSynth
  split
  · rfl
  · exact fetchDraftPicks_fst_simulate st data pros Option.none

/-- The three on-clock facts, proved once over an arbitrary pre-synthesis
state. -/
theorem synthesize_on_clock (s1 : DraftState) :
    (((synthesize s1).draft_picks.filter (fun p => p.on_clock)).length ≤ 1) ∧
    (∀ i, i < (synthesize s1).draft_picks.length →
      (((synthesize s1).draft_picks.getD i default).on_clock = true →
        ((synthesize s1).draft_picks.getD i default).player_name = "TBD" ∧
        ((synthesize s1).draft_picks.getD i default).round = (synthesize s1).current_round ∧
        ∀ j, j < i →
          ¬(((synthesize s1).draft_picks.getD j default).player_name = "TBD" ∧
            ((synthesize s1).draft_picks.getD j default).round =
              (synthesize s1).current_round))) ∧
    ((s1.simulate_live = true ∨ s1.is_draft_live = false) →
      ∀ p ∈ (synthesize s1).draft_picks, p.on_clock = false) := by
  rw [synthesize_def]
  have hclear := mem_cleared_on_clock
    (s1.draft_picks.insertionSort (fun a b => a.pick_number ≤ b.pick_number))
  cases hb : (s1.is_draft_live && !s1.simulate_live) with
  | true =>
    simp only [hb, if_true]
    refine ⟨markFirst_filter_length _ _ hclear, ?_, ?_⟩
    · exact markFirst_char s1.current_round _ hclear
    · intro hyp
      exfalso
      simp only [Bool.and_eq_true, Bool.not_eq_true'] at hb
      rcases hyp with h | h
      · rw [h] at hb; exact absurd hb.2 (by simp)
      · rw [h] at hb; exact absurd hb.1 (by simp)
  | false =>
    simp only [hb, Bool.false_eq_true, if_false]
    refine ⟨?_, ?_, fun _ => hclear⟩
    · rw [List.filter_eq_nil_iff.mpr (fun p hp => by simp [hclear p hp])]
      simp
    · intro i hi hoc
      exfalso
      rw [all_on_clock_false_of_getD _ hclear i hi] at hoc
      exact absurd hoc (by simp)

/-! ### Claims -/

/-- C1 (amended): in a cycle whose raw feed is empty, no exception
escapes and a warning is logged, but `draft_picks` is REPLACED by the
empty list rather than retained — `_fetch_draft_picks` returns `[]` and
`update` assigns it unconditionally; only the status fields
(`draft_status`, `is_draft_live`, `current_round`) keep their previous
values. -/
theorem c1_empty_feed (st : DraftState) (data : J) (pros : List Prospect)
    (hist : List Pick) (hdata : data.truthy = false)
    (hsim : st.simulate_live = false) :
    (updateCycle st data pros hist).draft_picks = [] ∧
    (updateCycle st data pros hist).draft_status = st.draft_status ∧
    (updateCycle st data pros hist).is_draft_live = st.is_draft_live ∧
    (updateCycle st data pros hist).current_round = st.current_round := by
  have hpre : preSynth st data pros hist = { st with draft_picks := [] } := by
    simp [preSynth, hsim, fetchDraftPicks, hdata]
  unfold updateCycle
  rw [hpre, synthesize_def]
  exact ⟨by simp [markFirst], rfl, rfl, rfl⟩

/-- State with one previously loaded pick, used to exhibit the C1
overwrite. -/
def stC1ex : DraftState :=
  ⟨[⟨1, 1, 1, "KC", "", "Previous Pick", "QB", "", false⟩],
   false, "live", 1, [1, 2, 3], false, 2025⟩

/-- C1 counterexample: with a non-empty previous pick list and an empty
raw feed, the cycle does NOT leave `draft_picks` what it was before — it
empties it. -/
theorem c1_counterexample :
    (J.obj []).truthy = false ∧
    (updateCycle stC1ex (J.obj []) [] []).draft_picks ≠ stC1ex.draft_picks := by
  decide

theorem c1_witness : (updateCycle stC1ex (J.obj []) [] []).draft_picks = [] :=
  (c1_empty_feed stC1ex (J.obj []) [] [] rfl rfl).1

/-- C2 (amended): reading a truthy status sub-object: `state == "post"`
sets `draft_status = "complete"` but leaves `is_draft_live` unchanged
from the prior cycle (the code assigns `is_draft_live` only in the
`"in"` branch); `state == "in"` yields `"live"` and
`is_draft_live = true`; any other value yields `"pre"` with
`is_draft_live` unchanged. -/
theorem c2_post_state (st : DraftState) (data : J) (stj : J)
    (hst : data.get "status" = Option.some stj) (ht : stj.truthy = true) :
    (pyLower (jGetStrD stj "state" "") = "post" →
      (updateStatusFromFeed st data).draft_status = "complete" ∧
      (updateStatusFromFeed st data).is_draft_live = st.is_draft_live) ∧
    (pyLower (jGetStrD stj "state" "") = "in" →
      (updateStatusFromFeed st data).draft_status = "live" ∧
      (updateStatusFromFeed st data).is_draft_live = true) ∧
    (pyLower (jGetStrD stj "state" "") ≠ "in" →
      pyLower (jGetStrD stj "state" "") ≠ "post" →
      (updateStatusFromFeed st data).draft_status = "pre" ∧
      (updateStatusFromFeed st data).is_draft_live = st.is_draft_live) := by
  have hgd : data.getD "status" (J.obj []) = stj := by simp [J.getD, hst]
  refine ⟨?_, ?_, ?_⟩
  · intro hs
    have hne : ¬(pyLower (jGetStrD stj "state" "") = "in") := by
      rw [hs]; decide
    simp only [updateStatusFromFeed, hgd, ht, if_true, if_neg hne, if_pos hs]
    cases stj.getD "round" (J.i 1) <;> exact ⟨rfl, rfl⟩
  · intro hs
    simp only [updateStatusFromFeed, hgd, ht, if_true, if_pos hs]
    cases stj.getD "round" (J.i 1) <;> exact ⟨rfl, rfl⟩
  · intro hn1 hn2
    simp only [updateStatusFromFeed, hgd, ht, if_true, if_neg hn1, if_neg hn2]
    cases stj.getD "round" (J.i 1) <;> exact ⟨rfl, rfl⟩

/-- A tracker that was live in the previous cycle. -/
def stC2ex : DraftState := ⟨[], true, "live", 1, [1, 2, 3], false, 2025⟩

/-- A feed whose status says the draft is over. -/
def feedC2ex : J := J.obj [("status", J.obj [("state", J.s "post")])]

/-- C2 counterexample: `state == "post"` sets `draft_status = "complete"`
but `is_draft_live` stays `true` when it was `true` before — the claim's
`is_draft_live = false` fails. -/
theorem c2_counterexample :
    (updateStatusFromFeed stC2ex feedC2ex).draft_status = "complete" ∧
    (updateStatusFromFeed stC2ex feedC2ex).is_draft_live = true := by decide

theorem c2_witness :
    (updateStatusFromFeed stC2ex feedC2ex).draft_status = "complete" :=
  ((c2_post_state stC2ex feedC2ex (J.obj [("state", J.s "post")]) rfl rfl).1
    (by decide)).1

/-- C3 (amended): with a truthy status sub-object, `current_round` is set
to the `round` field when that field is an integer, and left unchanged
when the field is present but not an integer; when the field is ABSENT,
however, the Python default `status.get("round", 1)` is the integer `1`,
so `current_round` is reset to 1 rather than left unchanged. -/
theorem c3_round_update (st : DraftState) (data : J) (stj : J)
    (hst : data.get "status" = Option.some stj) (ht : stj.truthy = true) :
    (∀ n : Int, stj.get "round" = Option.some (J.i n) →
      (updateStatusFromFeed st data).current_round = n) ∧
    (stj.get "round" = Option.none →
      (updateStatusFromFeed st data).current_round = 1) ∧
    (∀ v : J, stj.get "round" = Option.some v → (∀ n : Int, v ≠ J.i n) →
      (updateStatusFromFeed st data).current_round = st.current_round) := by
  have hgd : data.getD "status" (J.obj []) = stj := by simp [J.getD, hst]
  refine ⟨?_, ?_, ?_⟩
  · intro n hr
    have hrd : stj.getD "round" (J.i 1) = J.i n := by simp [J.getD, hr]
    simp only [updateStatusFromFeed, hgd, ht, if_true, hrd]
  · intro hr
    have hrd : stj.getD "round" (J.i 1) = J.i 1 := by simp [J.getD, hr]
    simp only [updateStatusFromFeed, hgd, ht, if_true, hrd]
  · intro v hr hv
    have hrd : stj.getD "round" (J.i 1) = v := by simp [J.getD, hr]
    simp only [updateStatusFromFeed, hgd, ht, if_true, hrd]
    cases v with
    | i n => exact absurd rfl (hv n)
    | null => split_ifs <;> rfl
    | s w => split_ifs <;> rfl
    | arr xs => split_ifs <;> rfl
    | obj fs => split_ifs <;> rfl

/-- A tracker in round 3. -/
def stC3ex : DraftState := ⟨[], false, "pre", 3, [1, 2, 3], false, 2025⟩

/-- A feed whose status carries no `round` field at all. -/
def feedC3ex : J := J.obj [("status", J.obj [("state", J.s "pre")])]

/-- C3 counterexample: with the `round` field absent, `current_round`
does not stay at its prior value 3 — it is reset to the default 1. -/
theorem c3_counterexample :
    stC3ex.current_round = 3 ∧
    (updateStatusFromFeed stC3ex feedC3ex).current_round = 1 := by decide

theorem c3_witness :
    (updateStatusFromFeed stC3ex feedC3ex).current_round = 1 :=
  (c3_round_update stC3ex feedC3ex (J.obj [("state", J.s "pre")]) rfl rfl).2.1 rfl

/-- C4 (amended): when the live feed is entirely unavailable, the live
decision equals the `_is_draft_date` heuristic, which compares against
`datetime(year, 4, 20)` and `datetime(year, 4, 27)` — i.e. it is live for
all of days 20–26 of April of the draft year, but of day 27 only the very
first instant (midnight) qualifies, because `datetime(year, 4, 27)` is
00:00:00 of that day; the rest of April 27 is NOT included. -/
theorem c4_date_fallback (st : DraftState) (data : J) (now : PyDateTime)
    (hdata : data.truthy = false) (hyear : now.year = st.draft_year)
    (hvalid : now.Valid) :
    (checkDraftLiveStatus st data now).1 = st ∧
    (checkDraftLiveStatus st data now).2 = isDraftDate st.draft_year now ∧
    ((checkDraftLiveStatus st data now).2 = true ↔
      (now.month = 4 ∧ ((20 ≤ now.day ∧ now.day ≤ 26) ∨
        (now.day = 27 ∧ now.hour = 0 ∧ now.minute = 0 ∧ now.second = 0 ∧
          now.microsecond = 0)))) := by
  have hc : checkDraftLiveStatus st data now = (st, isDraftDate st.draft_year now) := by
    simp [checkDraftLiveStatus, hdata]
  refine ⟨by rw [hc], by rw [hc], ?_⟩
  rw [hc]
  obtain ⟨h1, h2, h3, h4, h5, h6, h7, h8, h9, h10, h11, h12⟩ := hvalid
  simp only [isDraftDate, Bool.and_eq_true, decide_eq_true_eq, dtLe, hyear,
    true_and]
  omega

/-- An idle tracker for the date-fallback scenarios. -/
def stC4ex : DraftState := ⟨[], false, "pre", 1, [1, 2, 3], false, 2025⟩

/-- Noon of April 27 of the configured draft year. -/
def noonApr27 : PyDateTime := ⟨2025, 4, 27, 12, 0, 0, 0⟩

/-- C4 counterexample: on April 27 at noon — a day the claim includes in
the window — the heuristic reports NOT live, because the comparison upper
bound is midnight of April 27. -/
theorem c4_counterexample :
    J.null.truthy = false ∧ noonApr27.year = stC4ex.draft_year ∧
    noonApr27.month = 4 ∧ noonApr27.day = 27 ∧ noonApr27.Valid ∧
    (checkDraftLiveStatus stC4ex J.null noonApr27).2 = false := by decide

theorem c4_witness :
    (checkDraftLiveStatus stC4ex J.null ⟨2025, 4, 21, 19, 30, 0, 0⟩).2 = true :=
  ((c4_date_fallback stC4ex J.null ⟨2025, 4, 21, 19, 30, 0, 0⟩ rfl rfl
    (by decide)).2.2).mpr (by decide)

/-- C5 (amended): in projection (`"pre"`) status the slot at raw index
`idx` receives the `idx`-th entry of the rank-sorted prospect list (name,
position, college); a slot whose index is beyond the prospect list keeps
`player_name = "TBD"` — unless the raw slot already embeds a truthy
`athlete` object, in which case the live-draft fallback branch fills the
athlete's name even in `"pre"` status. -/
theorem c5_positional_matching (tl : List (String × J))
    (prospects : List Prospect) (idx : Nat) (raw : J) :
    (∀ h : idx < prospects.length,
      (sitePickAt "pre" tl prospects idx raw).player_name =
        (prospects.get ⟨idx, h⟩).displayName ∧
      (sitePickAt "pre" tl prospects idx raw).position =
        (prospects.get ⟨idx, h⟩).position ∧
      (sitePickAt "pre" tl prospects idx raw).college =
        (prospects.get ⟨idx, h⟩).college) ∧
    (prospects.length ≤ idx → jTruthyOpt (raw.get "athlete") = false →
      (sitePickAt "pre" tl prospects idx raw).player_name = "TBD") := by
  constructor
  · intro h
    have hget : prospects.getD idx ⟨"TBD", "", "", 999⟩ = prospects.get ⟨idx, h⟩ :=
      List.getD_eq_get prospects _ h
    simp only [sitePickAt]
    split_ifs with h1 h2
    · rw [hget]; exact ⟨rfl, rfl, rfl⟩
    · have hle : prospects.length ≤ idx := by simpa using h1
      omega
    · have hle : prospects.length ≤ idx := by simpa using h1
      omega
  · intro h hath
    simp only [sitePickAt]
    split_ifs with h1 h2
    · have := h1.2; omega
    · rw [hath] at h2; exact absurd h2 (by simp)
    · rfl

/-- A fresh projection-mode tracker. -/
def stC5ex : DraftState := ⟨[], false, "unknown", 1, [1, 2, 3], false, 2025⟩

/-- A projection feed (non-live, non-post state) whose single slot
already embeds an athlete object. -/
def feedC5ex : J := J.obj [
  ("status", J.obj [("state", J.s "scheduled")]),
  ("picks", J.arr [J.obj [("athlete", J.obj [("displayName", J.s "Embedded Athlete")])]])]

/-- C5 counterexample: projection mode with an EMPTY prospect list — the
single slot's index is beyond the prospect list, so per the claim it
should keep `player_name = "TBD"`; instead the embedded athlete's name is
used. -/
theorem c5_counterexample :
    (fetchDraftPicks stC5ex feedC5ex [] Option.none).1.draft_status = "pre" ∧
    ((fetchDraftPicks stC5ex feedC5ex [] Option.none).2.map
      (fun p => p.player_name)) = ["Embedded Athlete"] := by decide

/-- Scenario D's prospect list: ranks 1 and 2. -/
def prosC5 : List Prospect := [⟨"X", "QB", "Col X", 1⟩, ⟨"Y", "RB", "Col Y", 2⟩]

/-- Scenario D's raw slot (team only, no athlete). -/
def rawSlotC5 : J := J.obj [("teamId", J.s "10")]

theorem c5_witness :
    (sitePickAt "pre" [] prosC5 0 rawSlotC5).player_name = "X" ∧
    (sitePickAt "pre" [] prosC5 1 rawSlotC5).player_name = "Y" ∧
    (sitePickAt "pre" [] prosC5 2 rawSlotC5).player_name = "TBD" :=
  ⟨((c5_positional_matching [] prosC5 0 rawSlotC5).1 (by decide)).1,
   ((c5_positional_matching [] prosC5 1 rawSlotC5).1 (by decide)).1,
   (c5_positional_matching [] prosC5 2 rawSlotC5).2 (by decide) (by decide)⟩

/-- C9 (amended): rounds parsing never yields an empty list; `"all"`
yields exactly rounds 1–7; a string with no digit-only tokens is
corrected to the safe default `[1, 2, 3]`; but digit tokens are NOT range
checked against 1–7 at load time, so out-of-range values such as `"8"`
pass straight through (the 1–7 range check lives in `validate_config`,
separately from `_load_config`). -/
theorem c9_load_rounds (s : String) :
    loadRounds s ≠ [] ∧
    (pyLower s = "all" → loadRounds s = [1, 2, 3, 4, 5, 6, 7]) ∧
    (pyLower s ≠ "all" →
      (∀ t ∈ (pySplitOnChar s.data ',').map pyStripL, pyIsdigitL t = false) →
      loadRounds s = [1, 2, 3]) := by
  refine ⟨?_, ?_, ?_⟩
  · simp only [loadRounds]
    split_ifs <;> simp_all
  · intro hall
    simp [loadRounds, hall]
  · intro hall hnone
    have hfilter :
        (((pySplitOnChar s.data ',').map pyStripL).filter
          (fun t => pyIsdigitL t)) = [] := by
      apply List.filter_eq_nil_iff.mpr
      intro t ht
      simp [hnone t ht]
    simp [loadRounds, hall, hfilter]

/-- C9 counterexample: the configured string `"8"` parses to `[8]`, which
is not a subset of rounds 1–7 and is not corrected to the default. -/
theorem c9_counterexample :
    loadRounds "8" = [8] ∧ ¬(∀ n ∈ loadRounds "8", 1 ≤ n ∧ n ≤ 7) := by decide

theorem c9_witness : loadRounds "x,y" = [1, 2, 3] :=
  (c9_load_rounds "x,y").2.2 (by decide) (by decide)

/-- C10: when a raw pick's `overall` field is absent, the site normalizer
numbers it `idx + 1` and the historical normalizer numbers it `i + 1`,
where `idx`/`i` are the 0-based enumeration positions of the raw pick —
so the synthesized `pick_number` is always positive in that case. -/
theorem c10_positional_number (ds : String) (tl : List (String × J))
    (prospects : List Prospect) (tl2 : List (String × String)) (rn : Int)
    (ath : Option J) (idx i : Nat) (raw raw2 : J)
    (h1 : raw.get "overall" = Option.none)
    (h2 : raw2.get "overall" = Option.none) :
    ((sitePickAt ds tl prospects idx raw).pick_number = (idx : Int) + 1 ∧
      0 < (sitePickAt ds tl prospects idx raw).pick_number) ∧
    ((histPickAt tl2 i rn raw2 ath).pick_number = (i : Int) + 1 ∧
      0 < (histPickAt tl2 i rn raw2 ath).pick_number) := by
  have e1 : (sitePickAt ds tl prospects idx raw).pick_number = (idx : Int) + 1 := by
    simp only [sitePickAt, sitePickBase]
    split_ifs <;> simp [jGetIntD, h1]
  have e2 : (histPickAt tl2 i rn raw2 ath).pick_number = (i : Int) + 1 := by
    simp only [histPickAt]
    split_ifs <;> simp [jGetIntD, h2]
  refine ⟨⟨e1, ?_⟩, ⟨e2, ?_⟩⟩
  · rw [e1]; omega
  · rw [e2]; omega

theorem c10_witness :
    (sitePickAt "pre" [] [] 0 (J.obj [])).pick_number = 1 ∧
    (histPickAt [] 3 1 (J.obj []) Option.none).pick_number = 4 := by
  have h := c10_positional_number "pre" [] [] [] 1 Option.none 0 3
    (J.obj []) (J.obj []) rfl rfl
  exact ⟨h.1.1, h.2.1⟩

/-- C6: the round selector surfaces `current_round` and its picks as soon
as one current-round pick is resolved; otherwise (all current-round picks
unresolved) it surfaces the maximum round containing a resolved pick,
together with exactly that round's picks. -/
theorem c6_round_selector (st : DraftState) :
    ((∃ p ∈ st.draft_picks.filter (fun p => p.round = st.current_round),
        p.player_name ≠ "TBD") →
      getDisplayRound st =
        (st.current_round,
          st.draft_picks.filter (fun p => p.round = st.current_round))) ∧
    ((∀ p ∈ st.draft_picks, p.round = st.current_round → p.player_name = "TBD") →
      ∀ q ∈ st.draft_picks, q.player_name ≠ "TBD" →
        (∃ p ∈ st.draft_picks,
          p.player_name ≠ "TBD" ∧ p.round = (getDisplayRound st).1) ∧
        q.round ≤ (getDisplayRound st).1 ∧
        (getDisplayRound st).2 =
          st.draft_picks.filter (fun p => p.round = (getDisplayRound st).1)) := by
  constructor
  · rintro ⟨p, hp, hname⟩
    have hmem : p ∈ (st.draft_picks.filter (fun p => p.round = st.current_round)).filter
        (fun p => p.player_name ≠ "TBD") :=
      List.mem_filter.mpr ⟨hp, by simpa using hname⟩
    have hE : ((st.draft_picks.filter (fun p => p.round = st.current_round)).filter
        (fun p => p.player_name ≠ "TBD")).isEmpty = false := by
      cases hcase : (st.draft_picks.filter (fun p => p.round = st.current_round)).filter
          (fun p => p.player_name ≠ "TBD") with
      | nil => exact absurd hcase (List.ne_nil_of_mem hmem)
      | cons a l => rfl
    simp only [getDisplayRound, hE, Bool.not_false, if_true]
  · intro hall q hq hqname
    have hcd : (st.draft_picks.filter (fun p => p.round = st.current_round)).filter
        (fun p => p.player_name ≠ "TBD") = [] := by
      apply List.filter_eq_nil_iff.mpr
      intro p hp
      have hp2 := List.mem_filter.mp hp
      have hround : p.round = st.current_round := by simpa using hp2.2
      simp [hall p hp2.1 hround]
    have hq1 : q ∈ st.draft_picks.filter (fun p => p.player_name ≠ "TBD") :=
      List.mem_filter.mpr ⟨hq, by simpa using hqname⟩
    have hq3 : q.round ∈ ((st.draft_picks.filter
        (fun p => p.player_name ≠ "TBD")).map (fun p => p.round)).dedup :=
      List.mem_dedup.mpr (List.mem_map_of_mem _ hq1)
    have hq4 : q.round ∈ (((st.draft_picks.filter
        (fun p => p.player_name ≠ "TBD")).map (fun p => p.round)).dedup).insertionSort
        (fun a b => b ≤ a) :=
      (List.perm_insertionSort _ _).mem_iff.mpr hq3
    have hsorted : List.Sorted (fun a b : Int => b ≤ a)
        ((((st.draft_picks.filter (fun p => p.player_name ≠ "TBD")).map
          (fun p => p.round)).dedup).insertionSort (fun a b => b ≤ a)) :=
      List.sorted_insertionSort _ _
    cases hLcase : (((st.draft_picks.filter (fun p => p.player_name ≠ "TBD")).map
        (fun p => p.round)).dedup).insertionSort (fun a b => b ≤ a) with
    | nil =>
      rw [hLcase] at hq4
      cases hq4
    | cons last tail =>
      have key : getDisplayRound st =
          (last, st.draft_picks.filter (fun p => p.round = last)) := by
        simp only [getDisplayRound, hcd, List.isEmpty_nil, Bool.not_true,
          Bool.false_eq_true, if_false, hLcase]
      have hlast_mem : last ∈ (((st.draft_picks.filter
          (fun p => p.player_name ≠ "TBD")).map (fun p => p.round)).dedup) := by
        apply (List.perm_insertionSort (fun a b : Int => b ≤ a) _).mem_iff.mp
        rw [hLcase]
        exact List.mem_cons_self last tail
      obtain ⟨p, hpmem, hpround⟩ :=
        List.mem_map.mp (List.mem_dedup.mp hlast_mem)
      have hpfil := List.mem_filter.mp hpmem
      refine ⟨⟨p, hpfil.1, by simpa using hpfil.2, by rw [key]; exact hpround⟩, ?_, ?_⟩
      · rw [key]
        show q.round ≤ last
        rw [hLcase] at hq4 hsorted
        rcases List.mem_cons.mp hq4 with heq | hmemtail
        · exact le_of_eq heq
        · exact List.rel_of_sorted_cons hsorted _ hmemtail
      · rw [key]

/-- Picks for the C6 scenario: round 2 fully resolved, round 3 (the
current round) still unresolved. -/
def stC6ex : DraftState :=
  ⟨[⟨1, 2, 1, "KC", "", "A", "", "", false⟩,
    ⟨2, 2, 2, "DAL", "", "B", "", "", false⟩,
    ⟨3, 3, 1, "NE", "", "TBD", "", "", false⟩],
   true, "live", 3, [1, 2, 3], false, 2025⟩

theorem c6_witness :
    (∃ p ∈ stC6ex.draft_picks,
      p.player_name ≠ "TBD" ∧ p.round = (getDisplayRound stC6ex).1) ∧
    (⟨1, 2, 1, "KC", "", "A", "", "", false⟩ : Pick).round ≤
      (getDisplayRound stC6ex).1 ∧
    (getDisplayRound stC6ex).2 =
      stC6ex.draft_picks.filter (fun p => p.round = (getDisplayRound stC6ex).1) :=
  (c6_round_selector stC6ex).2 (by decide)
    ⟨1, 2, 1, "KC", "", "A", "", "", false⟩ (by decide) (by decide)

/-- C7: after every synthesis cycle at most one pick carries `on_clock`;
a marked pick has `player_name = "TBD"` and the tracked round, and no
earlier entry of the (pick_number-sorted) list satisfies that predicate —
i.e. it is the first open slot of the current round; stale flags are
cleared first; and nothing is ever marked in simulate mode or when the
draft is not live. -/
theorem c7_on_clock (st : DraftState) (data : J) (pros : List Prospect)
    (hist : List Pick) :
    (((updateCycle st data pros hist).draft_picks.filter
        (fun p => p.on_clock)).length ≤ 1) ∧
    (∀ i, i < (updateCycle st data pros hist).draft_picks.length →
      (((updateCycle st data pros hist).draft_picks.getD i default).on_clock = true →
        ((updateCycle st data pros hist).draft_picks.getD i default).player_name = "TBD" ∧
        ((updateCycle st data pros hist).draft_picks.getD i default).round =
          (updateCycle st data pros hist).current_round ∧
        ∀ j, j < i →
          ¬(((updateCycle st data pros hist).draft_picks.getD j default).player_name = "TBD" ∧
            ((updateCycle st data pros hist).draft_picks.getD j default).round =
              (updateCycle st data pros hist).current_round))) ∧
    ((st.simulate_live = true ∨ (updateCycle st data pros hist).is_draft_live = false) →
      ∀ p ∈ (updateCycle st data pros hist).draft_picks, p.on_clock = false) := by
  have h := synthesize_on_clock (preSynth st data pros hist)
  have hsim := preSynth_simulate st data pros hist
  unfold updateCycle
  refine ⟨h.1, h.2.1, ?_⟩
  intro hyp
  apply h.2.2
  rcases hyp with hy | hy
  · exact Or.inl (by rw [hsim]; exact hy)
  · exact Or.inr hy

/-- A live tracker in round 1 with no picks loaded yet. -/
def stC7ex : DraftState := ⟨[], true, "live", 1, [1, 2, 3], false, 2025⟩

/-- A live feed: pick 1 announced, picks 2 and 3 still open. -/
def feedC7ex : J := J.obj [
  ("status", J.obj [("state", J.s "in"), ("round", J.i 1)]),
  ("teams", J.arr [J.obj [("id", J.s "10"), ("abbreviation", J.s "KC")]]),
  ("picks", J.arr [
    J.obj [("overall", J.i 1), ("round", J.i 1), ("teamId", J.s "10"),
           ("athlete", J.obj [("displayName", J.s "Done")])],
    J.obj [("overall", J.i 2), ("round", J.i 1), ("teamId", J.s "10")],
    J.obj [("overall", J.i 3), ("round", J.i 1), ("teamId", J.s "10")]])]

theorem c7_witness :
    ((updateCycle stC7ex feedC7ex [] []).draft_picks.getD 1 default).on_clock = true ∧
    ((updateCycle stC7ex feedC7ex [] []).draft_picks.getD 1 default).player_name = "TBD" ∧
    ((updateCycle stC7ex feedC7ex [] []).draft_picks.getD 1 default).round =
      (updateCycle stC7ex feedC7ex [] []).current_round := by
  have h := (c7_on_clock stC7ex feedC7ex [] []).2.1 1 (by decide) (by decide)
  exact ⟨by decide, h.1, h.2.1⟩

/-- C8 (amended): after every synthesis cycle the exposed `draft_picks`
list is sorted in NON-DECREASING `pick_number` order; but nothing
deduplicates pick numbers, so a feed that repeats an `overall` value
yields duplicate `pick_number`s — uniqueness is not guaranteed. -/
theorem c8_sorted_pick_numbers (st : DraftState) (data : J)
    (pros : List Prospect) (hist : List Pick) :
    List.Pairwise (fun a b : Pick => a.pick_number ≤ b.pick_number)
      (updateCycle st data pros hist).draft_picks := by
  unfold updateCycle
  rw [synthesize_def]
  dsimp only
  split
  · exact pairwise_markFirst _ _ (pairwise_cleared _)
  · exact pairwise_cleared _

/-- A fresh projection tracker. -/
def stC8ex : DraftState := ⟨[], false, "pre", 1, [1, 2, 3], false, 2025⟩

/-- A feed in which two picks carry the same `overall` number. -/
def feedC8ex : J := J.obj [
  ("teams", J.arr [J.obj [("id", J.s "10"), ("abbreviation", J.s "KC")],
                   J.obj [("id", J.s "12"), ("abbreviation", J.s "DAL")]]),
  ("picks", J.arr [J.obj [("overall", J.i 1), ("teamId", J.s "10")],
                   J.obj [("overall", J.i 1), ("teamId", J.s "12")]])]

/-- C8 counterexample: a feed repeating `overall = 1` produces an exposed
list with `pick_number`s `[1, 1]` — not duplicate-free. -/
theorem c8_counterexample :
    ((updateCycle stC8ex feedC8ex [] []).draft_picks.map
      (fun p => p.pick_number)) = [1, 1] ∧
    ¬((updateCycle stC8ex feedC8ex [] []).draft_picks.map
      (fun p => p.pick_number)).Nodup := by decide

end NFLDraft
